import Mathlib

/-!
Shallow embedding of the lbry comment notifier pipeline
(src/core/src/lib.rs and src/runner/src/main.rs).

The remote entities (`Account`, `Claim`, `Comment`) and the persisted row
(`CommentEntity`) follow the Rust struct definitions field by field;
timestamps are modelled as integer epoch seconds, which is exactly what the
wire format carries (the Rust code decodes them with `Utc.timestamp(i, 0)`).
The SQLite-backed `Storage` is modelled as a list of rows (`Store`), with
`find`/`delete`/`insert` translated from the diesel queries used in
`Storage::get_comment_by_id`, `Storage::delete_comment_by_id` and
`Storage::save_comment`.
-/

/-- `core::Account` (src/core/src/lib.rs, lines 28-33). -/
structure Account where
  id : String
  name : String
  is_default : Bool
deriving DecidableEq, Repr

/-- `core::Claim` (src/core/src/lib.rs, lines 35-42); the timestamp is the
decoded integer epoch seconds. -/
structure Claim where
  id : String
  name : String
  timestamp : Int
deriving DecidableEq, Repr

/-- `core::Comment` (src/core/src/lib.rs, lines 44-64). -/
structure Comment where
  id : String
  claim_id : String
  comment : String
  commenter_id : String
  commenter_name : String
  commenter_url : String
  is_hidden : Bool
  timestamp : Int
deriving DecidableEq, Repr

/-- `core::CommentEntity` (src/core/src/lib.rs, lines 66-79), the persisted
row of the `comments` table (src/core/src/schema.rs). -/
structure CommentEntity where
  id : String
  account_id : String
  claim_id : String
  claim_name : String
  commenter_id : String
  commenter_name : String
  commenter_url : String
  comment : String
  is_hidden : Bool
  timestamp : Int
deriving DecidableEq, Repr

/-- `core::ApiError` (src/core/src/lib.rs, lines 100-104). -/
inductive ApiError where
  | InvalidResponse : ApiError
  | NetworkError : ApiError
deriving DecidableEq, Repr

/-- `core::PaginatedApiResult<A>` (src/core/src/lib.rs, lines 120-127). -/
structure PaginatedApiResult (A : Type) where
  items : List A
  page : Nat
  page_size : Nat
  total_items : Nat
  total_pages : Nat
deriving DecidableEq, Repr

/-- The items a page-fetching function contributes for one page: those of a
successful fetch, and the empty list for a failed fetch, exactly as
`stream_paginated` folds `map_ok(|result| result.items)` with
`unwrap_or_else(|_| Vec::default())` (src/core/src/lib.rs, lines 151-154). -/
def pageItems {A : Type} (f : Nat → Except ApiError (PaginatedApiResult A)) (page : Nat) :
    List A :=
  match f page with
  | .ok result => result.items
  | .error _ => []

/-- `core::stream_paginated` (src/core/src/lib.rs, lines 129-162).

`f` is the page-fetching function. The Rust function first awaits `f(1)`;
on error it produces `(0, Vec::default())`, so the stream is empty. On
success it emits page 1's items in order, then runs the fetches for pages
`2..=total_pages` in a `FuturesUnordered` and, as each future completes,
emits that page's items as one contiguous block. The completion order of
those futures is scheduler-chosen; it is modelled by the explicit argument
`order`, a list of page numbers. A faithful run constrains `order` to be a
permutation of `[2, ..., total_pages]` (hypotheses of the theorems below);
the function itself is defined for any `order`. -/
def stream_paginated {A : Type} (f : Nat → Except ApiError (PaginatedApiResult A))
    (order : List Nat) : List A :=
  match f 1 with
  | .error _ => []
  | .ok paginated => paginated.items ++ (order.map (pageItems f)).flatten

/-! ### Helper lemmas about flattened page maps -/

/-- A page in the completion order contributes a sublist (its block of items)
to the flattened tail of the stream. -/
theorem sublist_flatten_map_of_mem {A : Type} (g : Nat → List A) {p : Nat} {order : List Nat}
    (hp : p ∈ order) : (g p).Sublist ((order.map g).flatten) := by
  induction order with
  | nil => cases hp
  | cons a rest ih =>
    rcases List.mem_cons.mp hp with h | h
    · subst h
      simp only [List.map_cons, List.flatten_cons]
      exact List.sublist_append_left _ _
    · refine (ih h).trans ?_
      simp only [List.map_cons, List.flatten_cons]
      exact List.sublist_append_right _ _

/-- Removing a page whose contribution is empty does not change the
flattened item sequence. -/
theorem flatten_map_erase_of_empty {A : Type} (g : Nat → List A) {q : Nat} {order : List Nat}
    (hq : q ∈ order) (hempty : g q = []) :
    ((order.map g).flatten) = (((order.erase q).map g).flatten) := by
  induction order with
  | nil => cases hq
  | cons a rest ih =>
    by_cases hqa : a = q
    · subst hqa
      rw [List.erase_cons_head]
      simp [hempty]
    · rw [List.erase_cons_tail (by simpa using hqa)]
      rcases List.mem_cons.mp hq with h | h
      · exact absurd h.symm hqa
      · simp only [List.map_cons, List.flatten_cons, ih h]

/-! ### C2 and C5: pagination completeness and page-error absorption -/

/-- C2. When the fetch of page 1 succeeds with `total_pages = P` (with
`1 ≤ P`) and every page `2..=P` also succeeds (the completion order `order`
of the concurrent fetches is then a permutation of `[2, ..., P]`), the item
sequence produced by `stream_paginated` is a permutation of — i.e. the same
multiset as — the concatenation of the items of pages `1` through `P`, and
page 1's items are emitted first and in order. -/
theorem stream_paginated_union_of_pages {A : Type}
    (f : Nat → Except ApiError (PaginatedApiResult A)) (r1 : PaginatedApiResult A)
    (P : Nat) (order : List Nat)
    (h1 : f 1 = .ok r1) (hP : r1.total_pages = P) (hP1 : 1 ≤ P)
    (horder : order.Perm (List.range' 2 (P - 1))) :
    (stream_paginated f order).Perm (((List.range' 1 P).map (pageItems f)).flatten)
    ∧ (stream_paginated f order).take r1.items.length = r1.items := by
  have hstream : stream_paginated f order = r1.items ++ (order.map (pageItems f)).flatten := by
    simp [stream_paginated, h1]
  have hrange : List.range' 1 P = 1 :: List.range' 2 (P - 1) := by
    obtain ⟨n, rfl⟩ : ∃ n, P = n + 1 := ⟨P - 1, (Nat.succ_pred_eq_of_pos hP1).symm⟩
    simp [List.range'_succ]
  constructor
  · rw [hstream, hrange]
    simp only [List.map_cons, List.flatten_cons]
    have hhead : pageItems f 1 = r1.items := by simp [pageItems, h1]
    rw [hhead]
    exact List.Perm.append_left r1.items ((horder.map (pageItems f)).flatten)
  · rw [hstream]
    exact List.take_left r1.items _

/-- Concrete page-fetching function with three successful pages, used to
exercise the pagination theorems. -/
def fetchThreePages : Nat → Except ApiError (PaginatedApiResult Nat) :=
  fun p =>
    if p = 1 then .ok ⟨[10, 11], 1, 2, 6, 3⟩
    else if p = 2 then .ok ⟨[20, 21], 2, 2, 6, 3⟩
    else if p = 3 then .ok ⟨[30, 31], 3, 2, 6, 3⟩
    else .error .InvalidResponse

/-- Witness for C2: with three successful pages and completion order
`[3, 2]` for the tail pages, the stream is a permutation of the
concatenation of pages 1, 2, 3, and starts with page 1's items. -/
theorem stream_paginated_union_of_pages_witness :
    (stream_paginated fetchThreePages [3, 2]).Perm
      (((List.range' 1 3).map (pageItems fetchThreePages)).flatten)
    ∧ (stream_paginated fetchThreePages [3, 2]).take 2 = [10, 11] := by
  have h := stream_paginated_union_of_pages fetchThreePages ⟨[10, 11], 1, 2, 6, 3⟩ 3 [3, 2]
    rfl rfl (by decide) (by decide)
  simpa using h

/-- C5. Page-fetch errors are absorbed, never propagated (the stream's type
carries no error channel, matching the Rust stream of plain items):
(a) if the fetch of page 1 fails, the stream yields exactly zero items;
(b) a failed page `q` among the concurrently fetched tail pages contributes
zero items, and the stream is exactly what it would be without that page —
every other page's block of items is still emitted — and, page 1 having
succeeded with `r1`, page 1's items still open the stream. -/
theorem stream_paginated_absorbs_page_errors {A : Type}
    (f : Nat → Except ApiError (PaginatedApiResult A)) (order : List Nat) (q : Nat) :
    (∀ e, f 1 = .error e → stream_paginated f order = [])
    ∧ (∀ e, f q = .error e → pageItems f q = [])
    ∧ (q ∈ order → ∀ e, f q = .error e →
        stream_paginated f order = stream_paginated f (order.erase q))
    ∧ (∀ r1, f 1 = .ok r1 →
        ((stream_paginated f order).take r1.items.length = r1.items
          ∧ ∀ p ∈ order, (pageItems f p).Sublist (stream_paginated f order))) := by
  refine ⟨?_, ?_, ?_, ?_⟩
  · intro e h1
    simp [stream_paginated, h1]
  · intro e hq
    simp [pageItems, hq]
  · intro hmem e hq
    have hempty : pageItems f q = [] := by simp [pageItems, hq]
    unfold stream_paginated
    match hf : f 1 with
    | .error _ => rfl
    | .ok r1 =>
      rw [flatten_map_erase_of_empty (pageItems f) hmem hempty]
  · intro r1 h1
    have hstream : stream_paginated f order = r1.items ++ (order.map (pageItems f)).flatten := by
      simp [stream_paginated, h1]
    refine ⟨?_, ?_⟩
    · rw [hstream]
      exact List.take_left r1.items _
    · intro p hp
      rw [hstream]
      exact (sublist_flatten_map_of_mem (pageItems f) hp).trans
        (List.sublist_append_right r1.items _)

/-- Concrete page-fetching function whose page 2 fails with a network error
while pages 1 and 3 succeed. -/
def fetchPageTwoFails : Nat → Except ApiError (PaginatedApiResult Nat) :=
  fun p =>
    if p = 1 then .ok ⟨[10, 11], 1, 2, 6, 3⟩
    else if p = 2 then .error .NetworkError
    else if p = 3 then .ok ⟨[30, 31], 3, 2, 6, 3⟩
    else .error .InvalidResponse

/-- Concrete page-fetching function whose very first page fetch fails. -/
def fetchPageOneFails : Nat → Except ApiError (PaginatedApiResult Nat) :=
  fun _ => .error .NetworkError

/-- Witness for C5: a failed page 1 yields the empty stream; a failed page 2
contributes no items while pages 1 and 3 are still fully emitted. -/
theorem stream_paginated_absorbs_page_errors_witness :
    stream_paginated fetchPageOneFails [2, 3] = []
    ∧ pageItems fetchPageTwoFails 2 = []
    ∧ stream_paginated fetchPageTwoFails [2, 3] = stream_paginated fetchPageTwoFails [3]
    ∧ (stream_paginated fetchPageTwoFails [2, 3]).take 2 = [10, 11]
    ∧ (pageItems fetchPageTwoFails 3).Sublist (stream_paginated fetchPageTwoFails [2, 3]) := by
  have hone := stream_paginated_absorbs_page_errors fetchPageOneFails [2, 3] 2
  have htwo := stream_paginated_absorbs_page_errors fetchPageTwoFails [2, 3] 2
  refine ⟨hone.1 .NetworkError rfl, htwo.2.1 .NetworkError rfl, ?_, ?_, ?_⟩
  · have h := htwo.2.2.1 (by decide) .NetworkError rfl
    simpa using h
  · exact (htwo.2.2.2 ⟨[10, 11], 1, 2, 6, 3⟩ rfl).1
  · exact (htwo.2.2.2 ⟨[10, 11], 1, 2, 6, 3⟩ rfl).2 3 (by decide)

/-! ### Storage (src/core/src/lib.rs, lines 311-396)

The SQLite `comments` table is modelled as a list of rows. Diesel calls can
also fail at the connection level; that fallibility is injected through
explicit booleans (supplied per call by the `Oracles` of the runner model),
with `DieselError.DatabaseError` standing for any connection-level
`diesel::result::Error`. -/

/-- `diesel::result::Error`, restricted to the two shapes the code
distinguishes: `Error::NotFound` (returned by `.first` when no row matches)
and any other database error. -/
inductive DieselError where
  | NotFound : DieselError
  | DatabaseError : DieselError
deriving DecidableEq, Repr

/-- The persisted `comments` table: a list of rows. -/
abbrev Store := List CommentEntity

/-- The row-matching part of `c.find(comment_id).first(..)`: the first row
whose primary key `id` equals `comment_id`. -/
def find_comment (s : Store) (comment_id : String) : Option CommentEntity :=
  s.find? (fun e => e.id == comment_id)

/-- `c.find(comment_id).first(&self.conn)` (src/core/src/lib.rs, line 370):
`Error::NotFound` when no row matches, an injected `DatabaseError` when the
read itself fails at the connection level (`readOk = false`). -/
def first_comment_row (s : Store) (comment_id : String) (readOk : Bool) :
    Except DieselError CommentEntity :=
  if readOk then
    match find_comment s comment_id with
    | some e => .ok e
    | none => .error .NotFound
  else .error .DatabaseError

/-- `Storage::get_comment_by_id` (src/core/src/lib.rs, lines 367-371):
the `.ok()` at the end of the diesel call turns every `Err` into `None`. -/
def get_comment_by_id (s : Store) (comment_id : String) (readOk : Bool) :
    Option CommentEntity :=
  (first_comment_row s comment_id readOk).toOption

/-- The row effect of `diesel::delete(c.filter(id.eq(comment_id)))`: every
row whose `id` equals `comment_id` is removed. -/
def remove_comment (s : Store) (comment_id : String) : Store :=
  s.filter (fun e => e.id != comment_id)

/-- `Storage::delete_comment_by_id` (src/core/src/lib.rs, lines 373-379):
on a working connection (`connOk = true`) the call succeeds — deleting zero
rows is still `Ok`, since `.execute` merely reports the affected row count,
which `.map(|_| ())` discards. -/
def delete_comment_by_id (s : Store) (comment_id : String) (connOk : Bool) :
    Except DieselError Store :=
  if connOk then .ok (remove_comment s comment_id)
  else .error .DatabaseError

/-- The `CommentEntity` that `Storage::save_comment` (src/core/src/lib.rs,
lines 324-365) builds from the account's id, the claim's name and the
comment's fields. -/
def new_comment_entity (account : Account) (claim : Claim) (comment : Comment) :
    CommentEntity :=
  { id := comment.id
    account_id := account.id
    claim_id := comment.claim_id
    claim_name := claim.name
    commenter_id := comment.commenter_id
    commenter_name := comment.commenter_name
    commenter_url := comment.commenter_url
    comment := comment.comment
    is_hidden := comment.is_hidden
    timestamp := comment.timestamp }

/-- `Storage::save_comment` (src/core/src/lib.rs, lines 324-365): build the
row, insert it into the table, and return it. On a failing connection
(`insOk = false`) the diesel insert errors instead. -/
def save_comment (s : Store) (account : Account) (claim : Claim) (comment : Comment)
    (insOk : Bool) : Except DieselError (CommentEntity × Store) :=
  if insOk then
    let new_comment := new_comment_entity account claim comment
    .ok (new_comment, s ++ [new_comment])
  else .error .DatabaseError

/-! ### The runner's change detector (src/runner/src/main.rs, lines 53-114) -/

/-- The New/Updated/Unchanged outcome of comparing an incoming comment
against the persisted store. -/
inductive Classification where
  | New : Classification
  | Updated : Classification
  | Unchanged : Classification
deriving DecidableEq, Repr

/-- A store mutation performed by the change detector. -/
inductive Mutation where
  | del (comment_id : String) : Mutation
  | ins (entity : CommentEntity) : Mutation
deriving DecidableEq, Repr

/-- The panics raised by the `.expect` calls in `notify_new_comments`
(src/runner/src/main.rs, lines 79, 83, 94, 108); each aborts the run. -/
inductive RunError where
  | CouldNotDeleteComment : RunError
  | CouldNotSaveComment : RunError
  | UnableToSendMail : RunError
deriving DecidableEq, Repr

/-- Failure injection for the effectful calls of one run: whether the
store read, the store delete, the store insert, and the SMTP send succeed
for a given key/row. `allOk` models a run with no infrastructure failures. -/
structure Oracles where
  readOk : String → Bool
  delOk : String → Bool
  insOk : CommentEntity → Bool
  sendOk : CommentEntity → Bool

/-- The all-success oracle. -/
def allOk : Oracles :=
  { readOk := fun _ => true
    delOk := fun _ => true
    insOk := fun _ => true
    sendOk := fun _ => true }

/-- One step of the change detector for the triple `(account, claim,
comment)`: the body of the `filter_map` closure of `notify_new_comments`
(src/runner/src/main.rs, lines 70-98) followed, when a record is forwarded,
by the mail send of the `for_each_concurrent` closure (lines 99-109).
Returns the classification, the store mutations performed, the store after
the step and the forwarded record (if any); a failing effectful call
surfaces the corresponding `.expect` panic together with the store state at
the point of failure. -/
def notify_step (o : Oracles) (s : Store) (account : Account) (claim : Claim)
    (comment : Comment) :
    Except (RunError × Store)
      (Classification × List Mutation × Store × Option CommentEntity) :=
  let comment_id := comment.id
  match get_comment_by_id s comment_id (o.readOk comment_id) with
  | some comment_entity =>
    if comment_entity.comment ≠ comment.comment then
      match delete_comment_by_id s comment_id (o.delOk comment_id) with
      | .error _ => .error (.CouldNotDeleteComment, s)
      | .ok s1 =>
        match save_comment s1 account claim comment
            (o.insOk (new_comment_entity account claim comment)) with
        | .error _ => .error (.CouldNotSaveComment, s1)
        | .ok (new_comment_e, s2) =>
          if o.sendOk new_comment_e then
            .ok (.Updated, [.del comment_id, .ins new_comment_e], s2, some new_comment_e)
          else .error (.UnableToSendMail, s2)
    else .ok (.Unchanged, [], s, none)
  | none =>
    match save_comment s account claim comment
        (o.insOk (new_comment_entity account claim comment)) with
    | .error _ => .error (.CouldNotSaveComment, s)
    | .ok (new_comment_e, s2) =>
      if o.sendOk new_comment_e then
        .ok (.New, [.ins new_comment_e], s2, some new_comment_e)
      else .error (.UnableToSendMail, s2)

/-- One pass of `notify_new_comments` (src/runner/src/main.rs, lines
53-114) over the flattened `(account, claim, comment)` triples produced by
`all_comments`, in their surfacing order. Returns the final store, the
store mutations and the forwarded (notified) records of the pass, or the
first panic together with the store at that point — processing stops there. -/
def notify_new_comments (o : Oracles) (s : Store) :
    List (Account × Claim × Comment) →
    Except (RunError × Store) (Store × List Mutation × List CommentEntity)
  | [] => .ok (s, [], [])
  | (account, claim, comment) :: rest =>
    match notify_step o s account claim comment with
    | .error e => .error e
    | .ok (_, muts, s1, forwarded) =>
      match notify_new_comments o s1 rest with
      | .error e => .error e
      | .ok (s2, muts1, forwarded1) =>
        .ok (s2, muts ++ muts1, forwarded.toList ++ forwarded1)

/-- The all-success execution of one change-detector step: the same code
path as `notify_step allOk`, with the `Except` wrapper gone. -/
def notify_step_pure (s : Store) (account : Account) (claim : Claim) (comment : Comment) :
    Classification × List Mutation × Store × Option CommentEntity :=
  match find_comment s comment.id with
  | some comment_entity =>
    if comment_entity.comment ≠ comment.comment then
      let s1 := remove_comment s comment.id
      let new_comment_e := new_comment_entity account claim comment
      (.Updated, [.del comment.id, .ins new_comment_e], s1 ++ [new_comment_e],
        some new_comment_e)
    else (.Unchanged, [], s, none)
  | none =>
    let new_comment_e := new_comment_entity account claim comment
    (.New, [.ins new_comment_e], s ++ [new_comment_e], some new_comment_e)

/-- The all-success execution of one full pass, fold of `notify_step_pure`. -/
def notify_new_comments_pure (s : Store) :
    List (Account × Claim × Comment) → Store × List Mutation × List CommentEntity
  | [] => (s, [], [])
  | (account, claim, comment) :: rest =>
    let (_, muts, s1, forwarded) := notify_step_pure s account claim comment
    let (s2, muts1, forwarded1) := notify_new_comments_pure s1 rest
    (s2, muts ++ muts1, forwarded.toList ++ forwarded1)

/-! ### Helper lemmas about the store -/

/-- A row found by primary-key lookup carries that key. -/
theorem find_comment_eq_id {s : Store} {comment_id : String} {e : CommentEntity}
    (h : find_comment s comment_id = some e) : e.id = comment_id := by
  have := List.find?_some h
  simpa using this

/-- A successful lookup is unaffected by rows appended behind it. -/
theorem find_comment_append_of_some {s : Store} {comment_id : String} {e : CommentEntity}
    (l : Store) (h : find_comment s comment_id = some e) :
    find_comment (s ++ l) comment_id = some e := by
  unfold find_comment at h ⊢
  rw [List.find?_append, h]
  rfl

/-- When the lookup fails on the front part, it continues on the appended
rows. -/
theorem find_comment_append_of_none {s : Store} {comment_id : String} (l : Store)
    (h : find_comment s comment_id = none) :
    find_comment (s ++ l) comment_id = find_comment l comment_id := by
  unfold find_comment at h ⊢
  rw [List.find?_append, h]
  rfl

/-- After deleting a comment id, lookup of that id fails. -/
theorem find_comment_remove_self (s : Store) (comment_id : String) :
    find_comment (remove_comment s comment_id) comment_id = none := by
  apply List.find?_eq_none.mpr
  intro x hx
  have hmem := List.mem_filter.mp hx
  simpa using hmem.2

/-- Deleting one comment id does not disturb the lookup of another. -/
theorem find_comment_remove_other (s : Store) {comment_id other : String}
    (hne : comment_id ≠ other) :
    find_comment (remove_comment s other) comment_id = find_comment s comment_id := by
  unfold find_comment remove_comment
  induction s with
  | nil => rfl
  | cons a rest ih =>
    by_cases h : a.id = other
    · rw [List.filter_cons_of_neg (by simp [h])]
      rw [List.find?_cons_of_neg rest (by simp [h]; exact fun hc => hne hc.symm)]
      exact ih
    · rw [List.filter_cons_of_pos (by simp [h])]
      by_cases hc : a.id = comment_id
      · rw [List.find?_cons_of_pos _ (by simp [hc]), List.find?_cons_of_pos _ (by simp [hc])]
      · rw [List.find?_cons_of_neg _ (by simp [hc]), List.find?_cons_of_neg _ (by simp [hc])]
        exact ih

/-- If no row carries the id, deleting it leaves the store unchanged. -/
theorem remove_comment_absent {s : Store} {comment_id : String}
    (h : find_comment s comment_id = none) : remove_comment s comment_id = s := by
  apply List.filter_eq_self.mpr
  intro a ha
  have := List.find?_eq_none.mp h a ha
  simpa using this

/-! ### The all-success run coincides with the pure fold -/

/-- With a working connection, `get_comment_by_id` is exactly the
primary-key lookup. -/
theorem get_comment_by_id_allOk (s : Store) (comment_id : String) :
    get_comment_by_id s comment_id true = find_comment s comment_id := by
  unfold get_comment_by_id first_comment_row
  cases h : find_comment s comment_id <;> simp [h, Except.toOption]

/-- One failure-free change-detector step is the pure step. -/
theorem notify_step_allOk_eq (s : Store) (account : Account) (claim : Claim)
    (comment : Comment) :
    notify_step allOk s account claim comment =
      .ok (notify_step_pure s account claim comment) := by
  cases h : find_comment s comment.id with
  | none =>
    simp [notify_step, notify_step_pure, allOk, get_comment_by_id_allOk, h,
      delete_comment_by_id, save_comment]
  | some e =>
    by_cases he : e.comment = comment.comment <;>
      simp [notify_step, notify_step_pure, allOk, get_comment_by_id_allOk, h, he,
        delete_comment_by_id, save_comment]

/-- One failure-free pass is the pure fold. -/
theorem notify_new_comments_allOk_eq (s : Store)
    (ts : List (Account × Claim × Comment)) :
    notify_new_comments allOk s ts = .ok (notify_new_comments_pure s ts) := by
  induction ts generalizing s with
  | nil => rfl
  | cons t rest ih =>
    obtain ⟨account, claim, comment⟩ := t
    rcases hstep : notify_step_pure s account claim comment with ⟨cl, muts, s1, fwd⟩
    rcases hrun : notify_new_comments_pure s1 rest with ⟨s2, muts1, fwd1⟩
    simp [notify_new_comments, notify_new_comments_pure, notify_step_allOk_eq, hstep,
      ih s1, hrun]

/-- The store after a pass over `t :: rest` is the store after the pass
over `rest` started from the store `t`'s step produces. -/
theorem run_pure_cons_store (s : Store) (account : Account) (claim : Claim)
    (comment : Comment) (rest : List (Account × Claim × Comment)) :
    (notify_new_comments_pure s ((account, claim, comment) :: rest)).1
      = (notify_new_comments_pure (notify_step_pure s account claim comment).2.2.1 rest).1 := by
  rcases hstep : notify_step_pure s account claim comment with ⟨cl, muts, s1, fwd⟩
  rcases hrun : notify_new_comments_pure s1 rest with ⟨s2, muts1, fwd1⟩
  simp [notify_new_comments_pure, hstep, hrun]

/-! ### Invariants of the pure pass -/

/-- After one step on `(account, claim, comment)`, the store's first row
for `comment.id` carries `comment`'s text. -/
theorem notify_step_pure_find_self (s : Store) (account : Account) (claim : Claim)
    (comment : Comment) :
    ∃ e, find_comment (notify_step_pure s account claim comment).2.2.1 comment.id = some e
      ∧ e.comment = comment.comment := by
  cases h : find_comment s comment.id with
  | some ex =>
    by_cases he : ex.comment = comment.comment
    · refine ⟨ex, ?_, he⟩
      simp [notify_step_pure, h, he]
    · refine ⟨new_comment_entity account claim comment, ?_, rfl⟩
      simp only [notify_step_pure, h, if_pos he]
      rw [find_comment_append_of_none _ (find_comment_remove_self s comment.id)]
      simp [find_comment, new_comment_entity]
  | none =>
    refine ⟨new_comment_entity account claim comment, ?_, rfl⟩
    simp only [notify_step_pure, h]
    rw [find_comment_append_of_none _ h]
    simp [find_comment, new_comment_entity]

/-- A step for a comment that either has a different id, or the same id and
the same text, keeps "the first row for `comment_id` carries text `txt`"
true. -/
theorem notify_step_pure_preserves_find (s : Store) (account : Account) (claim : Claim)
    (comment : Comment) {comment_id txt : String}
    (hfound : ∃ e, find_comment s comment_id = some e ∧ e.comment = txt)
    (hm : comment.id = comment_id → comment.comment = txt) :
    ∃ e, find_comment (notify_step_pure s account claim comment).2.2.1 comment_id = some e
      ∧ e.comment = txt := by
  by_cases hid : comment.id = comment_id
  · obtain ⟨e', he', hc⟩ := notify_step_pure_find_self s account claim comment
    exact ⟨e', hid ▸ he', by rw [hc, hm hid]⟩
  · obtain ⟨e, he, hc⟩ := hfound
    cases h : find_comment s comment.id with
    | some ex =>
      by_cases hcc : ex.comment = comment.comment
      · exact ⟨e, by simp [notify_step_pure, h, hcc, he], hc⟩
      · refine ⟨e, ?_, hc⟩
        simp only [notify_step_pure, h, if_pos hcc]
        have h1 : find_comment (remove_comment s comment.id) comment_id
            = find_comment s comment_id :=
          find_comment_remove_other s (fun hh => hid hh.symm)
        exact find_comment_append_of_some _ (h1.trans he)
    | none =>
      refine ⟨e, ?_, hc⟩
      simp only [notify_step_pure, h]
      exact find_comment_append_of_some _ he

/-- A pass whose triples never introduce a different text for `comment_id`
keeps "the first row for `comment_id` carries text `txt`" true. -/
theorem run_pure_preserves_find (s : Store) (ts : List (Account × Claim × Comment))
    {comment_id txt : String}
    (hfound : ∃ e, find_comment s comment_id = some e ∧ e.comment = txt)
    (hts : ∀ t ∈ ts, (t.2.2).id = comment_id → (t.2.2).comment = txt) :
    ∃ e, find_comment (notify_new_comments_pure s ts).1 comment_id = some e
      ∧ e.comment = txt := by
  induction ts generalizing s with
  | nil => exact hfound
  | cons t rest ih =>
    obtain ⟨account, claim, comment⟩ := t
    rw [run_pure_cons_store]
    refine ih _ ?_ (fun t' ht' => hts t' (List.mem_cons_of_mem _ ht'))
    exact notify_step_pure_preserves_find s account claim comment hfound
      (hts (account, claim, comment) (List.mem_cons_self _ _))

/-- After one pass whose triples assign each comment id a single text, the
store's first row for every processed comment id carries that text. -/
theorem run_pure_establishes_find (s : Store) (ts : List (Account × Claim × Comment))
    (htext : ∀ t1 ∈ ts, ∀ t2 ∈ ts, (t1.2.2).id = (t2.2.2).id →
      (t1.2.2).comment = (t2.2.2).comment) :
    ∀ t ∈ ts, ∃ e, find_comment (notify_new_comments_pure s ts).1 (t.2.2).id = some e
      ∧ e.comment = (t.2.2).comment := by
  induction ts generalizing s with
  | nil => intro t ht; cases ht
  | cons hd rest ih =>
    obtain ⟨account, claim, comment⟩ := hd
    intro t ht
    rw [run_pure_cons_store]
    rcases List.mem_cons.mp ht with rfl | hmem
    · refine run_pure_preserves_find _ rest
        (notify_step_pure_find_self s account claim comment) ?_
      intro t' ht' hid
      exact htext t' (List.mem_cons_of_mem _ ht') (account, claim, comment)
        (List.mem_cons_self _ _) hid
    · exact ih _ (fun t1 h1 t2 h2 => htext t1 (List.mem_cons_of_mem _ h1) t2
        (List.mem_cons_of_mem _ h2)) t hmem

/-- A pass over triples that are all already persisted with equal text does
nothing: no mutation, no forwarded record, same store. -/
theorem run_pure_noop_of_unchanged (s : Store) (ts : List (Account × Claim × Comment))
    (hall : ∀ t ∈ ts, ∃ e, find_comment s (t.2.2).id = some e
      ∧ e.comment = (t.2.2).comment) :
    notify_new_comments_pure s ts = (s, [], []) := by
  induction ts with
  | nil => rfl
  | cons hd rest ih =>
    obtain ⟨account, claim, comment⟩ := hd
    obtain ⟨e, he, hc⟩ := hall (account, claim, comment) (List.mem_cons_self _ _)
    have hstep : notify_step_pure s account claim comment = (.Unchanged, [], s, none) := by
      simp [notify_step_pure, he, hc]
    have hrest := ih (fun t ht => hall t (List.mem_cons_of_mem _ ht))
    simp [notify_new_comments_pure, hstep, hrest]

/-! ### Concrete fixtures for the witnesses -/

/-- Fixture account. -/
def accountA : Account := { id := "acct1", name := "main", is_default := true }

/-- Fixture claim. -/
def claimA : Claim := { id := "claim1", name := "video", timestamp := 100 }

/-- Fixture comment `c1` with text `"hello"`. -/
def commentC1 : Comment :=
  { id := "c1", claim_id := "claim1", comment := "hello", commenter_id := "ch1",
    commenter_name := "alice", commenter_url := "url1", is_hidden := false,
    timestamp := 200 }

/-- Fixture comment `c2` with text `"world"`. -/
def commentC2 : Comment :=
  { id := "c2", claim_id := "claim1", comment := "world", commenter_id := "ch2",
    commenter_name := "bob", commenter_url := "url2", is_hidden := false,
    timestamp := 300 }

/-- Persisted row for `c1` with the stale text `"old"`. -/
def entityC1old : CommentEntity :=
  { id := "c1", account_id := "acct1", claim_id := "claim1", claim_name := "video",
    commenter_id := "ch1", commenter_name := "alice", commenter_url := "url1",
    comment := "old", is_hidden := false, timestamp := 200 }

/-- Persisted row for `c1` with `c1`'s current text but a different
commenter name (and timestamp). -/
def entityC1otherName : CommentEntity :=
  { id := "c1", account_id := "acct1", claim_id := "claim1", claim_name := "video",
    commenter_id := "ch1", commenter_name := "someone else", commenter_url := "url9",
    comment := "hello", is_hidden := true, timestamp := 999 }

/-! ### C1: change classification -/

/-- C1. For a triple `(account, claim, comment)` processed by a
failure-free change-detector step: an unpersisted comment id is classified
`New`, with exactly one insert of the record built from `account.id`,
`claim.name` and `comment`'s fields, and that record forwarded for
notification; a persisted id with different text is classified `Updated`,
with exactly one delete of that id followed by exactly one insert of a
record with the same id and the new text, and the record forwarded; a
persisted id with equal text is classified `Unchanged`, with no mutation
and nothing forwarded. -/
theorem notify_step_change_classification (s : Store) (account : Account) (claim : Claim)
    (comment : Comment) :
    (find_comment s comment.id = none →
      notify_step allOk s account claim comment =
        .ok (.New, [.ins (new_comment_entity account claim comment)],
          s ++ [new_comment_entity account claim comment],
          some (new_comment_entity account claim comment))
      ∧ (new_comment_entity account claim comment).account_id = account.id
      ∧ (new_comment_entity account claim comment).claim_name = claim.name
      ∧ (new_comment_entity account claim comment).id = comment.id
      ∧ (new_comment_entity account claim comment).comment = comment.comment)
    ∧ (∀ e, find_comment s comment.id = some e → e.comment ≠ comment.comment →
      notify_step allOk s account claim comment =
        .ok (.Updated, [.del comment.id, .ins (new_comment_entity account claim comment)],
          remove_comment s comment.id ++ [new_comment_entity account claim comment],
          some (new_comment_entity account claim comment))
      ∧ (new_comment_entity account claim comment).id = e.id
      ∧ (new_comment_entity account claim comment).comment = comment.comment)
    ∧ (∀ e, find_comment s comment.id = some e → e.comment = comment.comment →
      notify_step allOk s account claim comment = .ok (.Unchanged, [], s, none)) := by
  refine ⟨?_, ?_, ?_⟩
  · intro h
    rw [notify_step_allOk_eq]
    refine ⟨?_, rfl, rfl, rfl, rfl⟩
    simp [notify_step_pure, h]
  · intro e he hne
    rw [notify_step_allOk_eq]
    refine ⟨?_, ?_, rfl⟩
    · simp [notify_step_pure, he, hne]
    · rw [find_comment_eq_id he]
      rfl
  · intro e he heq
    rw [notify_step_allOk_eq]
    simp [notify_step_pure, he, heq]

/-- Witness for C1: against an empty store `c1` is `New`; against its stale
row it is `Updated` with one delete then one insert; against its current
row it is `Unchanged`. -/
theorem notify_step_change_classification_witness :
    (notify_step allOk [] accountA claimA commentC1 =
      .ok (.New, [.ins (new_comment_entity accountA claimA commentC1)],
        [new_comment_entity accountA claimA commentC1],
        some (new_comment_entity accountA claimA commentC1)))
    ∧ (notify_step allOk [entityC1old] accountA claimA commentC1 =
      .ok (.Updated, [.del commentC1.id, .ins (new_comment_entity accountA claimA commentC1)],
        remove_comment [entityC1old] commentC1.id ++ [new_comment_entity accountA claimA commentC1],
        some (new_comment_entity accountA claimA commentC1)))
    ∧ (notify_step allOk [entityC1otherName] accountA claimA commentC1 =
      .ok (.Unchanged, [], [entityC1otherName], none)) := by
  refine ⟨?_, ?_, ?_⟩
  · have h := (notify_step_change_classification [] accountA claimA commentC1).1 rfl
    simpa using h.1
  · exact ((notify_step_change_classification [entityC1old] accountA claimA commentC1).2.1
      entityC1old rfl (by decide)).1
  · exact (notify_step_change_classification [entityC1otherName] accountA claimA
      commentC1).2.2 entityC1otherName rfl rfl

/-! ### C8: updates are triggered by text inequality only -/

/-- C8. For a triple whose comment id is persisted as row `e`, the step is
classified `Updated` exactly when the stored text differs from the incoming
text; when the texts are equal — whatever the other fields of `e` or of the
incoming comment are — the step is `Unchanged`, with no store mutation and
no forwarded record. -/
theorem updated_iff_text_differs (s : Store) (account : Account) (claim : Claim)
    (comment : Comment) (e : CommentEntity)
    (hfind : find_comment s comment.id = some e) :
    ((notify_step_pure s account claim comment).1 = .Updated ↔ e.comment ≠ comment.comment)
    ∧ (e.comment = comment.comment →
      notify_step allOk s account claim comment = .ok (.Unchanged, [], s, none)) := by
  by_cases he : e.comment = comment.comment
  · have hstep : notify_step_pure s account claim comment = (.Unchanged, [], s, none) := by
      simp [notify_step_pure, hfind, he]
    refine ⟨?_, fun _ => by rw [notify_step_allOk_eq, hstep]⟩
    rw [hstep]
    simp [he]
  · have hstep : (notify_step_pure s account claim comment).1 = .Updated := by
      simp [notify_step_pure, hfind, he]
    refine ⟨?_, fun hcontra => absurd hcontra he⟩
    rw [hstep]
    simp [he]

/-- Witness for C8: a persisted row for `c1` with the same text but a
different commenter name, commenter url, hidden flag and timestamp is
`Unchanged` — not `Updated` — and the step leaves the store alone and
forwards nothing. -/
theorem updated_iff_text_differs_witness :
    ¬((notify_step_pure [entityC1otherName] accountA claimA commentC1).1 = .Updated)
    ∧ notify_step allOk [entityC1otherName] accountA claimA commentC1 =
        .ok (.Unchanged, [], [entityC1otherName], none) := by
  have h := updated_iff_text_differs [entityC1otherName] accountA claimA commentC1
    entityC1otherName rfl
  exact ⟨fun hc => (h.1.mp hc) rfl, h.2 rfl⟩

/-! ### C7: a second pass over an unchanged upstream is a no-op -/

/-- C7. If one failure-free pass over the upstream triples (where the
upstream assigns each comment id one text) succeeds and produces store
`s1`, then a second failure-free pass over the same triples performs zero
store mutations and forwards zero notifications, leaving `s1` as it is. -/
theorem second_run_is_noop (s : Store) (ts : List (Account × Claim × Comment))
    (htext : ∀ t1 ∈ ts, ∀ t2 ∈ ts, (t1.2.2).id = (t2.2.2).id →
      (t1.2.2).comment = (t2.2.2).comment)
    (s1 : Store) (muts : List Mutation) (fwd : List CommentEntity)
    (hrun1 : notify_new_comments allOk s ts = .ok (s1, muts, fwd)) :
    notify_new_comments allOk s1 ts = .ok (s1, [], []) := by
  have hglue := notify_new_comments_allOk_eq s ts
  rw [hrun1] at hglue
  have htuple : (s1, muts, fwd) = notify_new_comments_pure s ts := by
    injection hglue
  have hs1 : s1 = (notify_new_comments_pure s ts).1 := congrArg Prod.fst htuple
  rw [notify_new_comments_allOk_eq s1 ts]
  refine congrArg Except.ok ?_
  rw [hs1]
  exact run_pure_noop_of_unchanged _ ts (run_pure_establishes_find s ts htext)

/-- Witness for C7: a first pass over two fresh comments inserts and
notifies both; the second pass over the identical triples mutates nothing
and notifies nobody. -/
theorem second_run_is_noop_witness :
    notify_new_comments allOk
        [new_comment_entity accountA claimA commentC1,
          new_comment_entity accountA claimA commentC2]
        [(accountA, claimA, commentC1), (accountA, claimA, commentC2)] =
      .ok ([new_comment_entity accountA claimA commentC1,
        new_comment_entity accountA claimA commentC2], [], []) := by
  refine second_run_is_noop [] _ (by decide) _
    [.ins (new_comment_entity accountA claimA commentC1),
      .ins (new_comment_entity accountA claimA commentC2)]
    [new_comment_entity accountA claimA commentC1,
      new_comment_entity accountA claimA commentC2] ?_
  rw [notify_new_comments_allOk_eq]
  rfl

/-! ### C6: persistence and notification failures abort the pass -/

/-- C6. If the triples processed so far succeeded and the step for the next
triple `t` fails — a failing delete or insert (`CouldNotDeleteComment`,
`CouldNotSaveComment`) or a failing mail send (`UnableToSendMail`), the
only errors a step can raise — then the whole pass returns that failure,
whatever triples `post` were still pending: none of them is processed. -/
theorem run_aborts_on_first_failure (o : Oracles) (s : Store)
    (pre : List (Account × Claim × Comment)) (t : Account × Claim × Comment)
    (post : List (Account × Claim × Comment)) (s1 : Store) (muts : List Mutation)
    (fwd : List CommentEntity)
    (hpre : notify_new_comments o s pre = .ok (s1, muts, fwd))
    (err : RunError × Store)
    (hstep : notify_step o s1 t.1 t.2.1 t.2.2 = .error err) :
    notify_new_comments o s (pre ++ t :: post) = .error err := by
  induction pre generalizing s muts fwd with
  | nil =>
    obtain ⟨account, claim, comment⟩ := t
    have hs : s = s1 := by
      have : Except.ok (ε := RunError × Store) (s, [], ([] : List CommentEntity))
          = .ok (s1, muts, fwd) := hpre
      exact congrArg Prod.fst (by injection this)
    subst hs
    simp [notify_new_comments, hstep]
  | cons hd rest ih =>
    obtain ⟨account0, claim0, comment0⟩ := hd
    rcases hhd : notify_step o s account0 claim0 comment0 with e | r
    · rw [show notify_new_comments o s (((account0, claim0, comment0) :: rest))
          = .error e from by simp [notify_new_comments, hhd]] at hpre
      cases hpre
    · obtain ⟨cl0, muts0, s0, fwd0⟩ := r
      simp only [notify_new_comments, hhd] at hpre
      rcases hrest : notify_new_comments o s0 rest with e1 | ⟨s2, muts2, fwd2⟩
      · rw [hrest] at hpre; cases hpre
      · rw [hrest] at hpre
        have h2 : (s2, muts0 ++ muts2, fwd0.toList ++ fwd2) = (s1, muts, fwd) := by
          injection hpre
        have hs2 : s2 = s1 := congrArg Prod.fst h2
        have hih := ih s0 muts2 fwd2 (by rw [hrest, hs2])
        simp [notify_new_comments, hhd, hih]

/-- Oracle where every SMTP send fails and everything else succeeds. -/
def sendFails : Oracles :=
  { readOk := fun _ => true
    delOk := fun _ => true
    insOk := fun _ => true
    sendOk := fun _ => false }

/-- Witness for C6: with the mail send failing, a pass over a fresh comment
followed by a second pending triple aborts on the first triple's send — the
pending triple is never processed and the run ends in the send panic. -/
theorem run_aborts_on_first_failure_witness :
    notify_new_comments sendFails [] ([] ++ (accountA, claimA, commentC1)
        :: [(accountA, claimA, commentC2)]) =
      .error (.UnableToSendMail, [new_comment_entity accountA claimA commentC1]) := by
  refine run_aborts_on_first_failure sendFails [] [] (accountA, claimA, commentC1)
    [(accountA, claimA, commentC2)] [] [] [] rfl _ ?_
  rfl

/-! ### C9: a failed store read is treated as absence -/

/-- C9. `get_comment_by_id` ends in `.ok()`, so an underlying read error —
here a `DatabaseError` from the connection — comes out as `None`, exactly
like an absent row; the change detector therefore classifies the triple
`New` and attempts the insert (and proceeds) instead of aborting the run on
the failed read. -/
theorem read_error_is_treated_as_absent (s : Store) (account : Account) (claim : Claim)
    (comment : Comment) (o : Oracles)
    (hread : o.readOk comment.id = false)
    (hins : o.insOk (new_comment_entity account claim comment) = true)
    (hsend : o.sendOk (new_comment_entity account claim comment) = true) :
    first_comment_row s comment.id (o.readOk comment.id) = .error .DatabaseError
    ∧ get_comment_by_id s comment.id (o.readOk comment.id) = none
    ∧ notify_step o s account claim comment =
        .ok (.New, [.ins (new_comment_entity account claim comment)],
          s ++ [new_comment_entity account claim comment],
          some (new_comment_entity account claim comment)) := by
  rw [hread]
  refine ⟨rfl, rfl, ?_⟩
  simp [notify_step, hread, get_comment_by_id, first_comment_row, save_comment, hins, hsend,
    Except.toOption]

/-- Oracle where every store read fails and everything else succeeds. -/
def readFails : Oracles :=
  { readOk := fun _ => false
    delOk := fun _ => true
    insOk := fun _ => true
    sendOk := fun _ => true }

/-- Witness for C9: with the read failing on a store that actually holds
`c1`'s row, the lookup still reports `none` and the step classifies the
triple `New` and inserts a duplicate row instead of aborting. -/
theorem read_error_is_treated_as_absent_witness :
    first_comment_row [entityC1old] commentC1.id (readFails.readOk commentC1.id)
        = .error .DatabaseError
    ∧ get_comment_by_id [entityC1old] commentC1.id (readFails.readOk commentC1.id) = none
    ∧ notify_step readFails [entityC1old] accountA claimA commentC1 =
        .ok (.New, [.ins (new_comment_entity accountA claimA commentC1)],
          [entityC1old] ++ [new_comment_entity accountA claimA commentC1],
          some (new_comment_entity accountA claimA commentC1)) :=
  read_error_is_treated_as_absent [entityC1old] accountA claimA commentC1 readFails
    rfl rfl rfl

/-! ### C10: deleting an absent id succeeds and changes nothing -/

/-- C10. On a working connection, `delete_comment_by_id` for an id with no
persisted row returns `Ok` — diesel's `.execute` merely reports zero
affected rows, which `.map(|_| ())` discards — and the store is unchanged. -/
theorem delete_absent_id_is_ok (s : Store) (comment_id : String)
    (habsent : find_comment s comment_id = none) :
    delete_comment_by_id s comment_id true = .ok s := by
  unfold delete_comment_by_id
  rw [if_pos rfl, remove_comment_absent habsent]

/-- Witness for C10: deleting the unpersisted id `c9` from a store holding
only `c1`'s row succeeds and leaves the row in place. -/
theorem delete_absent_id_is_ok_witness :
    delete_comment_by_id [entityC1old] "c9" true = .ok [entityC1old] :=
  delete_absent_id_is_ok [entityC1old] "c9" rfl

/-! ### C3: the delete+insert of an update is not atomic -/

/-- Oracle where every store insert fails and everything else succeeds. -/
def insFails : Oracles :=
  { readOk := fun _ => true
    delOk := fun _ => true
    insOk := fun _ => false
    sendOk := fun _ => true }

/-- C3 evidence. `notify_new_comments` performs the update's delete and
insert as two separate storage calls with no surrounding
`Storage::transaction` (the wrapper exists but is never called by the
runner). Concretely: updating `c1` from text `"old"` to `"hello"` with the
insert failing aborts the step after the delete has been applied, and the
store at that point — which is what a crash would leave behind — has no row
for `c1` at all. -/
theorem update_delete_insert_not_atomic :
    notify_step insFails [entityC1old] accountA claimA commentC1 =
      .error (.CouldNotSaveComment, [])
    ∧ find_comment ([] : Store) commentC1.id = none := by
  exact ⟨rfl, rfl⟩
